import Mathlib

/-!
Verification of the quaternion/sphere-slicing script (src/quaternions/quaternion.py).

The script has two independent pieces of numerical logic:

* `quat_mult` — the Hamilton product of two quaternions (lines 8-14);
* the cross-section extractor of `SphereViz.construct` — sampled sphere
  points are bucketed by `float_key(z / RADIUS)` into the dict `z_map`
  (lines 37-42), and `compute_data` (lines 63-73) looks the current cursor
  value up in `z_map`, returning `None` on a miss and otherwise a freshly
  built array of (point, rgba, radius) display tuples.

The embedding uses exact rational arithmetic (`ℚ`) for the real-valued
quantities; the Python builtin `round(f, 2)` is modelled as round-half-to-even on
the exact value, the documented semantics of `round`.  The insertion-ordered
Python dict `z_map` is modelled as an association list that appends new
keys at the end, mirroring lines 41-42.  Mutable state (the display objects
driven by the updaters, lines 82-93) is modelled by explicit state passing.
-/

/-- RADIUS = 1.0 (line 5). -/
def RADIUS : ℚ := 1

/-- DOT_RADIUS = 0.02 (line 6). -/
def DOT_RADIUS : ℚ := 1 / 50

/-- A quaternion (w, x, y, z), as the 4-component arrays the script uses. -/
@[ext] structure Quat where
  w : ℚ
  x : ℚ
  y : ℚ
  z : ℚ
deriving DecidableEq, Repr

/-- `quat_mult` (lines 8-14): componentwise transcription of the returned
array `[w1*w2 - x1*x2 - y1*y2 - z1*z2, ...]`. -/
def quat_mult (q1 q2 : Quat) : Quat :=
  { w := q1.w * q2.w - q1.x * q2.x - q1.y * q2.y - q1.z * q2.z
    x := q1.w * q2.x + q1.x * q2.w + q1.y * q2.z - q1.z * q2.y
    y := q1.w * q2.y - q1.x * q2.z + q1.y * q2.w + q1.z * q2.x
    z := q1.w * q2.z + q1.x * q2.y - q1.y * q2.x + q1.z * q2.w }

/-- The Hamilton product exactly as the contract in section 4.1 of the spec
writes it, to be compared against the `quat_mult` of the code. -/
def hamilton_product_spec (q1 q2 : Quat) : Quat :=
  { w := q1.w * q2.w - q1.x * q2.x - q1.y * q2.y - q1.z * q2.z
    x := q1.w * q2.x + q1.x * q2.w + q1.y * q2.z - q1.z * q2.y
    y := q1.w * q2.y - q1.x * q2.z + q1.y * q2.w + q1.z * q2.x
    z := q1.w * q2.z + q1.x * q2.y - q1.y * q2.x + q1.z * q2.w }

/-- Squared Euclidean norm of a quaternion (the notion of unit
quaternion in the spec: `normSq q = 1`). -/
def normSq (q : Quat) : ℚ := q.w * q.w + q.x * q.x + q.y * q.y + q.z * q.z

/-- Round a rational to the nearest integer, ties to even: the documented semantics
of the Python builtin `round` on the exact value. -/
def rndHalfEven (q : ℚ) : ℤ :=
  let f : ℤ := q.num.fdiv q.den
  let r : ℚ := q - (f : ℚ)
  if r < 1 / 2 then f
  else if 1 / 2 < r then f + 1
  else if f % 2 = 0 then f else f + 1

/-- `float_key(f) = round(f, 2)` (line 20): round to two decimal digits. -/
def float_key (f : ℚ) : ℚ := (rndHalfEven (f * 100) : ℚ) / 100

/-- One entry of `sphere.data` (line 32): a sampled 3-D point together with
its RGBA colour assigned by the gradient at sampling time. -/
structure DataPoint where
  point : ℚ × ℚ × ℚ
  rgba : ℚ × ℚ × ℚ × ℚ
deriving DecidableEq, Repr

/-- One entry of the `DotCloud.data_dtype` array built by `compute_data`
(lines 68-72): point, rgba and a display radius. -/
structure DotEntry where
  point : ℚ × ℚ × ℚ
  rgba : ℚ × ℚ × ℚ × ℚ
  radius : ℚ
deriving DecidableEq, Repr

/-- The bucketing key of a data point (line 40):
`float_key(point[2] / RADIUS)`. -/
def zkey (dp : DataPoint) : ℚ := float_key (dp.point.2.2 / RADIUS)

/-- The insertion-ordered dict `z_map`: an association list from rounded
z-keys to the ordered bucket of data points. -/
abbrev ZMap : Type := List (ℚ × List DataPoint)

/-- `z_map.get(k)` (lines 41, 64-65): first binding of the key, if any. -/
def zmapGet (m : ZMap) (k : ℚ) : Option (List DataPoint) :=
  match m with
  | [] => none
  | (k', l) :: rest => if k' = k then some l else zmapGet rest k

/-- `z_map[k].append(dp)` (line 42): append to the bucket of an existing key. -/
def zmapAppend (m : ZMap) (k : ℚ) (dp : DataPoint) : ZMap :=
  match m with
  | [] => []
  | (k', l) :: rest =>
      if k' = k then (k', l ++ [dp]) :: rest else (k', l) :: zmapAppend rest k dp

/-- The body of the build loop (lines 41-42): create a fresh singleton bucket
when the key is absent (Python dicts append new keys at the end), otherwise
append to the existing bucket. -/
def zmapAdd (m : ZMap) (k : ℚ) (dp : DataPoint) : ZMap :=
  match zmapGet m k with
  | none => m ++ [(k, [dp])]
  | some _ => zmapAppend m k dp

/-- The build loop (lines 37-42): fold `zmapAdd` over the sampled points in
sample order, starting from the empty dict. -/
def build (pts : List DataPoint) : ZMap :=
  pts.foldl (fun m dp => zmapAdd m (zkey dp) dp) []

/-- One row of the array `compute_data` builds (lines 70-72): the point and
rgba are copied unchanged, the radius is filled with `DOT_RADIUS`. -/
def toEntry (dp : DataPoint) : DotEntry :=
  { point := dp.point, rgba := dp.rgba, radius := DOT_RADIUS }

/-- `compute_data` (lines 63-73): key the cursor by
`float_key(cursor / RADIUS)`, return `None` on a missing bucket, else the
freshly built display array. -/
def compute_data (m : ZMap) (cursor : ℚ) : Option (List DotEntry) :=
  match zmapGet m (float_key (cursor / RADIUS)) with
  | none => none
  | some arr => some (arr.map toEntry)

/-- `compute_data` in explicit state-passing form: the query reads `z_map`
through `dict.get` and subscripting only, and hands the map back unchanged. -/
def compute_data_st (m : ZMap) (cursor : ℚ) : Option (List DotEntry) × ZMap :=
  match zmapGet m (float_key (cursor / RADIUS)) with
  | none => (none, m)
  | some arr => (some (arr.map toEntry), m)

/-- The mutable display state of a `DotCloud` mobject: its data array and
its centre position. -/
structure DisplayObj where
  data : List DotEntry
  center : ℚ × ℚ × ℚ
deriving DecidableEq, Repr

/-- Centre of `axes2d` after `move_to(RIGHT * 3)` (line 45). -/
def axes2d_center : ℚ × ℚ × ℚ := (3, 0, 0)

/-- Centre of `axes_3d` after the group is moved by `move_to(LEFT * 3)` (line 35). -/
def axes3d_center : ℚ × ℚ × ℚ := (-3, 0, 0)

/-- `updater` (lines 82-86): on a hit, `set_data` then `move_to(axes2d)`;
on a miss (`data is None`) the object is left untouched. -/
def updater (m : ZMap) (cursor : ℚ) (obj : DisplayObj) : DisplayObj :=
  match compute_data m cursor with
  | none => obj
  | some d => { data := d, center := axes2d_center }

/-- `updater_3d` (lines 88-93): on a hit, `set_data`, `move_to(axes_3d)`,
then `shift([0, 0, z])`; on a miss the object is left untouched. -/
def updater_3d (m : ZMap) (cursor : ℚ) (obj : DisplayObj) : DisplayObj :=
  match compute_data m cursor with
  | none => obj
  | some d => { data := d, center := axes3d_center + (0, 0, cursor) }

/-- Bucket extension: how the bucket of one fixed key evolves when a run of
points is folded into the map — an absent bucket stays absent when no point
matches the key, is created by the first matching point, and matching points
are appended in order. -/
def bucketExt : Option (List DataPoint) → List DataPoint → Option (List DataPoint)
  | some xs, l => some (xs ++ l)
  | none, [] => none
  | none, l => some l

/-- Concrete sample point: z = 1, red. -/
def p1 : DataPoint := { point := (0, 0, 1), rgba := (1, 0, 0, 1) }

/-- Concrete sample point: z = 0, green. -/
def p2 : DataPoint := { point := (1, 0, 0), rgba := (0, 1, 0, 1) }

/-- Concrete sample point: z = 1 again (shares a bucket with `p1`), blue. -/
def p3 : DataPoint := { point := (0, 0, 1), rgba := (0, 0, 1, 1) }

/-- A small concrete sample, with two points in the z = 1 bucket. -/
def pts0 : List DataPoint := [p1, p2, p3]

/-- A concrete display object in its pre-frame state. -/
def obj0 : DisplayObj := { data := [], center := (0, 0, 0) }

theorem zmapAdd_cons_eq (k : ℚ) (l0 : List DataPoint) (rest : ZMap)
    (dp : DataPoint) :
    zmapAdd ((k, l0) :: rest) k dp = (k, l0 ++ [dp]) :: rest := by
  simp [zmapAdd, zmapGet, zmapAppend]

theorem zmapAdd_cons_ne (k0 k : ℚ) (l0 : List DataPoint) (rest : ZMap)
    (dp : DataPoint) (h : k0 ≠ k) :
    zmapAdd ((k0, l0) :: rest) k dp = (k0, l0) :: zmapAdd rest k dp := by
  unfold zmapAdd
  simp only [zmapGet, if_neg h]
  cases hg : zmapGet rest k with
  | none => simp [zmapAppend, h]
  | some l => simp [zmapAppend, h]

theorem zmapGet_zmapAdd (m : ZMap) (k : ℚ) (dp : DataPoint) (k' : ℚ) :
    zmapGet (zmapAdd m k dp) k' =
      if k' = k then some ((zmapGet m k).getD [] ++ [dp]) else zmapGet m k' := by
  induction m with
  | nil =>
    by_cases h : k' = k
    · subst h; simp [zmapAdd, zmapGet]
    · have h2 : ¬ k = k' := fun hh => h hh.symm
      simp [zmapAdd, zmapGet, h, h2]
  | cons e rest ih =>
    obtain ⟨k0, l0⟩ := e
    by_cases h0 : k0 = k
    · subst h0
      rw [zmapAdd_cons_eq]
      by_cases h : k' = k0
      · subst h; simp [zmapGet]
      · have h2 : ¬ k0 = k' := fun hh => h hh.symm
        simp [zmapGet, h, h2]
    · rw [zmapAdd_cons_ne k0 k l0 rest dp h0]
      by_cases h2 : k0 = k'
      · subst h2
        have hk : ¬ k0 = k := h0
        simp [zmapGet, ih, fun hh : k0 = k => h0 hh]
      · by_cases h1 : k' = k
        · subst h1
          simp [zmapGet, ih, h2, h0, fun hh : k0 = k' => h2 hh]
        · simp [zmapGet, ih, h1, h2]

theorem bucketExt_nil (o : Option (List DataPoint)) : bucketExt o [] = o := by
  cases o <;> simp [bucketExt]

theorem bucketExt_cons (o : Option (List DataPoint)) (p : DataPoint)
    (l : List DataPoint) :
    bucketExt (some (o.getD [] ++ [p])) l = bucketExt o (p :: l) := by
  cases o <;> cases l <;> simp [bucketExt]

theorem zmapGet_foldl (pts : List DataPoint) (m : ZMap) (k : ℚ) :
    zmapGet (pts.foldl (fun m dp => zmapAdd m (zkey dp) dp) m) k =
      bucketExt (zmapGet m k) (pts.filter (fun p => decide (zkey p = k))) := by
  induction pts generalizing m with
  | nil => simp [bucketExt_nil]
  | cons p rest ih =>
    simp only [List.foldl_cons, List.filter_cons]
    rw [ih]
    by_cases h : zkey p = k
    · subst h
      rw [zmapGet_zmapAdd]
      simp [bucketExt_cons]
    · rw [zmapGet_zmapAdd]
      have h2 : ¬ k = zkey p := fun hh => h hh.symm
      simp [h, h2]

theorem zmapGet_build (pts : List DataPoint) (k : ℚ) :
    zmapGet (build pts) k =
      bucketExt none (pts.filter (fun p => decide (zkey p = k))) :=
  zmapGet_foldl pts [] k

theorem zmapGet_build_eq_some {pts : List DataPoint} {k : ℚ}
    {l : List DataPoint} :
    zmapGet (build pts) k = some l ↔
      pts.filter (fun p => decide (zkey p = k)) = l ∧ l ≠ [] := by
  rw [zmapGet_build]
  cases hf : pts.filter (fun p => decide (zkey p = k)) with
  | nil => simp [bucketExt]
  | cons a t =>
    simp only [bucketExt]
    constructor
    · intro h
      cases h
      exact ⟨rfl, by simp⟩
    · intro ⟨h, _⟩
      rw [h]

theorem zmapGet_build_eq_none {pts : List DataPoint} {k : ℚ} :
    zmapGet (build pts) k = none ↔
      pts.filter (fun p => decide (zkey p = k)) = [] := by
  rw [zmapGet_build]
  cases hf : pts.filter (fun p => decide (zkey p = k)) with
  | nil => simp [bucketExt]
  | cons a t => simp [bucketExt]

theorem build_isSome_iff (pts : List DataPoint) (k : ℚ) :
    (zmapGet (build pts) k).isSome = true ↔ ∃ p ∈ pts, zkey p = k := by
  constructor
  · intro hs
    obtain ⟨l, hl⟩ := Option.isSome_iff_exists.1 hs
    obtain ⟨hfilt, hne⟩ := zmapGet_build_eq_some.1 hl
    obtain ⟨a, ha⟩ := List.exists_mem_of_ne_nil l hne
    rw [← hfilt] at ha
    obtain ⟨hmem, hdec⟩ := List.mem_filter.1 ha
    exact ⟨a, hmem, of_decide_eq_true hdec⟩
  · intro ⟨p, hp, hk⟩
    cases hg : zmapGet (build pts) k with
    | some l => rfl
    | none =>
      have hfilt := zmapGet_build_eq_none.1 hg
      have hpf : p ∈ pts.filter (fun p => decide (zkey p = k)) :=
        List.mem_filter.2 ⟨hp, decide_eq_true hk⟩
      rw [hfilt] at hpf
      cases hpf

/-- Claim C1: querying with a cursor value whose rounded key
`float_key(cursor / RADIUS)` is a key of `z_map` returns exactly the colored
points originally assigned to that bucket — the sub-list, in sample order, of
the sampled points whose z-key equals the cursor key — with each point and its
RGBA color copied unchanged into the display tuple. -/
theorem compute_data_hit_returns_bucket (pts : List DataPoint) (c : ℚ)
    (arr : List DataPoint)
    (h : zmapGet (build pts) (float_key (c / RADIUS)) = some arr) :
    compute_data (build pts) c = some (arr.map toEntry) ∧
    arr = pts.filter (fun p => decide (zkey p = float_key (c / RADIUS))) ∧
    ∀ p ∈ arr, (toEntry p).rgba = p.rgba ∧ (toEntry p).point = p.point := by
  refine ⟨?_, ?_, ?_⟩
  · simp [compute_data, h]
  · exact (zmapGet_build_eq_some.1 h).1.symm
  · intro p _
    exact ⟨rfl, rfl⟩

/-- Claim C2: querying with a cursor value whose rounded key has no bucket
returns `None` (the embedding is a total function, so no error is raised), and
whenever the query returns an array at all, that array is non-empty. -/
theorem compute_data_miss_none (pts : List DataPoint) (c : ℚ) :
    (zmapGet (build pts) (float_key (c / RADIUS)) = none →
      compute_data (build pts) c = none) ∧
    (∀ l, compute_data (build pts) c = some l → l ≠ []) := by
  constructor
  · intro h
    simp [compute_data, h]
  · intro l hl
    unfold compute_data at hl
    cases hg : zmapGet (build pts) (float_key (c / RADIUS)) with
    | none => rw [hg] at hl; cases hl
    | some arr =>
      rw [hg] at hl
      obtain ⟨_, hne⟩ := zmapGet_build_eq_some.1 hg
      have : l = arr.map toEntry := (Option.some_inj.1 hl).symm
      subst this
      simpa using hne

/-- Claim C3: after the build step the key set of `z_map` is exactly the set
of rounded z-keys of the sampled points; every point stored under key `k` has
z-key `k`; and every sampled point lies in exactly one bucket, the one keyed
by its own z-key. -/
theorem build_bucket_invariants (pts : List DataPoint) :
    (∀ k, (zmapGet (build pts) k).isSome = true ↔ ∃ p ∈ pts, zkey p = k) ∧
    (∀ k l, zmapGet (build pts) k = some l → ∀ p ∈ l, zkey p = k) ∧
    (∀ p ∈ pts, ∀ k,
      (∃ l, zmapGet (build pts) k = some l ∧ p ∈ l) ↔ k = zkey p) := by
  refine ⟨build_isSome_iff pts, ?_, ?_⟩
  · intro k l hl p hp
    obtain ⟨hfilt, _⟩ := zmapGet_build_eq_some.1 hl
    rw [← hfilt] at hp
    exact of_decide_eq_true (List.mem_filter.1 hp).2
  · intro p hp k
    constructor
    · intro ⟨l, hl, hpl⟩
      obtain ⟨hfilt, _⟩ := zmapGet_build_eq_some.1 hl
      rw [← hfilt] at hpl
      exact (of_decide_eq_true (List.mem_filter.1 hpl).2).symm
    · intro hk
      subst hk
      have hpf : p ∈ pts.filter (fun q => decide (zkey q = zkey p)) :=
        List.mem_filter.2 ⟨hp, decide_eq_true rfl⟩
      have hne : pts.filter (fun q => decide (zkey q = zkey p)) ≠ [] :=
        List.ne_nil_of_mem hpf
      refine ⟨pts.filter (fun q => decide (zkey q = zkey p)), ?_, hpf⟩
      exact zmapGet_build_eq_some.2 ⟨rfl, hne⟩

/-- Claim C4: `quat_mult` computes the Hamilton product precisely as the
contract of section 4.1 of the spec writes it; as embedded it is a pure total
function on quadruples of rationals. -/
theorem quat_mult_is_hamilton_product (q1 q2 : Quat) :
    quat_mult q1 q2 = hamilton_product_spec q1 q2 := rfl

/-- Claim C5: quaternion multiplication as implemented is associative, over
exact rational arithmetic. -/
theorem quat_mult_assoc (a b c : Quat) :
    quat_mult (quat_mult a b) c = quat_mult a (quat_mult b c) := by
  ext <;> simp [quat_mult] <;> ring

/-- Claim C6: the quaternion (1, 0, 0, 0) is a two-sided identity for
`quat_mult`. -/
theorem quat_mult_identity (q : Quat) :
    quat_mult q { w := 1, x := 0, y := 0, z := 0 } = q ∧
    quat_mult { w := 1, x := 0, y := 0, z := 0 } q = q := by
  constructor <;> ext <;> simp [quat_mult]

/-- Claim C10: the Hamilton product implemented by `quat_mult` is
multiplicative on squared norms, so the product of two unit quaternions is a
unit quaternion. -/
theorem normSq_quat_mult (q1 q2 : Quat) :
    normSq (quat_mult q1 q2) = normSq q1 * normSq q2 ∧
    (normSq q1 = 1 → normSq q2 = 1 → normSq (quat_mult q1 q2) = 1) := by
  have hmul : normSq (quat_mult q1 q2) = normSq q1 * normSq q2 := by
    simp only [normSq, quat_mult]
    ring
  exact ⟨hmul, fun h1 h2 => by rw [hmul, h1, h2, one_mul]⟩

/-- Claim C8: every tuple of one query result carries the same fixed display
radius `DOT_RADIUS`. -/
theorem compute_data_radius_consistent (m : ZMap) (c : ℚ) (l : List DotEntry)
    (h : compute_data m c = some l) : ∀ e ∈ l, e.radius = DOT_RADIUS := by
  unfold compute_data at h
  cases hg : zmapGet m (float_key (c / RADIUS)) with
  | none => rw [hg] at h; cases h
  | some arr =>
    rw [hg] at h
    have : l = arr.map toEntry := (Option.some_inj.1 h).symm
    subst this
    intro e he
    obtain ⟨p, _, hpe⟩ := List.mem_map.1 he
    rw [← hpe]
    rfl

/-- Claim C9: on a missed lookup (`compute_data` returns `None`) both
per-frame updaters leave the display object exactly as it was, and the query
hands `z_map` back unchanged — it never mutates the bucket map. -/
theorem updater_noop_on_miss (m : ZMap) (c : ℚ) (obj : DisplayObj) :
    (compute_data m c = none →
      updater m c obj = obj ∧ updater_3d m c obj = obj) ∧
    (compute_data_st m c).2 = m := by
  constructor
  · intro h
    constructor <;> simp [updater, updater_3d, h]
  · unfold compute_data_st
    cases hg : zmapGet m (float_key (c / RADIUS)) <;> simp

/-- Claim C7 (amended): in a successful query both the 2-D and the 3-D
updaters install the same display tuples, whose z-coordinate is the true z of
the bucketed point in both variants — the 2-D updater never flattens z to 0 —
and whose radius is the single constant `DOT_RADIUS` in both variants. -/
theorem compute_data_display_tuples (m : ZMap) (c : ℚ) (d : List DotEntry)
    (obj : DisplayObj) (h : compute_data m c = some d) :
    (updater m c obj).data = d ∧ (updater_3d m c obj).data = d ∧
    (∀ e ∈ d, e.radius = DOT_RADIUS) ∧
    ∃ arr, zmapGet m (float_key (c / RADIUS)) = some arr ∧
      d.map DotEntry.point = arr.map DataPoint.point := by
  refine ⟨by simp [updater, h], by simp [updater_3d, h], ?_, ?_⟩
  · exact compute_data_radius_consistent m c d h
  · unfold compute_data at h
    cases hg : zmapGet m (float_key (c / RADIUS)) with
    | none => rw [hg] at h; cases h
    | some arr =>
      rw [hg] at h
      have : d = arr.map toEntry := (Option.some_inj.1 h).symm
      subst this
      exact ⟨arr, rfl, by simp [toEntry]⟩

section

attribute [local semireducible] Rat.add Rat.mul Rat.sub Rat.inv

/-- Witness for C1: querying the sample `pts0` at cursor 1 returns exactly the
two points of the z = 1 bucket, in sample order. -/
theorem compute_data_hit_witness :
    compute_data (build pts0) 1 = some ([p1, p3].map toEntry) ∧
    [p1, p3] = pts0.filter (fun p => decide (zkey p = float_key (1 / RADIUS))) :=
  ⟨(compute_data_hit_returns_bucket pts0 1 [p1, p3] (by decide)).1,
   (compute_data_hit_returns_bucket pts0 1 [p1, p3] (by decide)).2.1⟩

/-- Witness for C2: the cursor 1/3 rounds to the key 0.33, which no sampled
point of `pts0` produces, so the query returns `None`. -/
theorem compute_data_miss_witness :
    compute_data (build pts0) (1 / 3) = none :=
  (compute_data_miss_none pts0 (1 / 3)).1 (by decide)

/-- Witness for C3: the key 1 is in the key set of the map built from `pts0`,
because `p1` rounds to it. -/
theorem build_bucket_invariants_witness :
    (zmapGet (build pts0) 1).isSome = true :=
  ((build_bucket_invariants pts0).1 1).mpr (by decide)

/-- Counterexample to C7 as stated: the display tuples the 2-D updater
installs for the sample `pts0` at cursor 1 carry z-coordinate 1, the true z of
the bucketed points — not 0 as the claimed 2-D flattening would require. -/
theorem updater_2d_z_not_flattened :
    ((updater (build pts0) 1 obj0).data.map (fun e => e.point.2.2)) = [1, 1] ∧
    (1 : ℚ) ≠ 0 := by
  constructor
  · decide
  · decide

/-- Witness for the amended C7: at cursor 1 both updaters install the same
tuples, with true z and radius `DOT_RADIUS`. -/
theorem compute_data_display_tuples_witness :
    (updater (build pts0) 1 obj0).data = [p1, p3].map toEntry ∧
    (updater_3d (build pts0) 1 obj0).data = [p1, p3].map toEntry :=
  ⟨(compute_data_display_tuples (build pts0) 1 ([p1, p3].map toEntry) obj0
      (by decide)).1,
   (compute_data_display_tuples (build pts0) 1 ([p1, p3].map toEntry) obj0
      (by decide)).2.1⟩

/-- Witness for C8: the first tuple returned for `pts0` at cursor 1 carries
the radius `DOT_RADIUS`. -/
theorem compute_data_radius_witness :
    (toEntry p1).radius = DOT_RADIUS :=
  compute_data_radius_consistent (build pts0) 1 ([p1, p3].map toEntry)
    (by decide) (toEntry p1) (by decide)

/-- Witness for C9: at the missing cursor 1/3 both updaters leave the concrete
display object `obj0` untouched. -/
theorem updater_noop_witness :
    updater (build pts0) (1 / 3) obj0 = obj0 ∧
    updater_3d (build pts0) (1 / 3) obj0 = obj0 :=
  (updater_noop_on_miss (build pts0) (1 / 3) obj0).1 (by decide)

/-- Witness for C10: the product of the unit quaternions (1/2, 1/2, 1/2, 1/2)
and (0, 1, 0, 0) is a unit quaternion. -/
theorem normSq_quat_mult_witness :
    normSq (quat_mult { w := 1 / 2, x := 1 / 2, y := 1 / 2, z := 1 / 2 }
      { w := 0, x := 1, y := 0, z := 0 }) = 1 :=
  (normSq_quat_mult { w := 1 / 2, x := 1 / 2, y := 1 / 2, z := 1 / 2 }
    { w := 0, x := 1, y := 0, z := 0 }).2 (by decide) (by decide)

end
